import Mathlib

/-!
Verification of the Seatelligence table-assignment core.

The repository's core engine (`app.py` / `api.py`: `time_to_minutes`,
`minutes_to_time`, `times_overlap`, `find_available_table`, and the
move/swap mutation endpoints) is documented in `src/API_README.md` and
called from the client scripts, but its Python source is not part of the
checked-in sources.  Those functions are therefore modelled from the
specification.  The client-side scripts (`src/unnamed/part_003`,
`src/static/js/floorplan.js`) are embedded directly from their JavaScript
source.
-/

namespace Seatelligence

/-- A restaurant table: unique id and seat capacity. -/
structure Table where
  id : Nat
  seats : Nat
deriving DecidableEq, Repr

/-- A booking on one calendar date.  `finish` embeds the source field
`end` (a Lean keyword).  Times are minutes since midnight. -/
structure Booking where
  table_id : Nat
  name : String
  party_size : Nat
  start : Nat
  finish : Nat
  notes : Option String
deriving DecidableEq, Repr

/-- Errors of the time codec, from the spec's error taxonomy. -/
inductive TimeError where
  | invalidTimeFormat
  | invalidTimeValue
deriving DecidableEq, Repr

/-- Numeric value of an ASCII digit character, `none` on anything else. -/
def digitVal (c : Char) : Option Nat :=
  if ('0' : Char) ≤ c ∧ c ≤ ('9' : Char) then some (c.toNat - 48) else none

/-- The ASCII digit character for a value `d < 10`. -/
def digitChar (d : Nat) : Char :=
  Char.ofNat (48 + d)

/-- Modelled from the spec: `time_to_minutes` of `app.py` (not under the
checked-in sources).  Accepts exactly `HH:MM` with `HH` in `[00,23]` and
`MM` in `[00,59]`, returning minutes since midnight; every other input
fails with `InvalidTimeFormat`. -/
def time_to_minutes (s : String) : Except TimeError Nat :=
  match s.data with
  | [h1, h2, sep, m1, m2] =>
    if sep = ':' then
      match digitVal h1, digitVal h2, digitVal m1, digitVal m2 with
      | some a, some b, some x, some y =>
        if 10 * a + b ≤ 23 ∧ 10 * x + y ≤ 59 then
          Except.ok (60 * (10 * a + b) + (10 * x + y))
        else Except.error TimeError.invalidTimeFormat
      | _, _, _, _ => Except.error TimeError.invalidTimeFormat
    else Except.error TimeError.invalidTimeFormat
  | _ => Except.error TimeError.invalidTimeFormat

/-- Modelled from the spec: `minutes_to_time` of `app.py` (not under the
checked-in sources).  Renders minutes in `[0,1440)` as zero-padded
`HH:MM`; outside that range fails with `InvalidTimeValue`. -/
def minutes_to_time (m : Nat) : Except TimeError String :=
  if m < 1440 then
    Except.ok (String.mk [digitChar (m / 60 / 10), digitChar (m / 60 % 10), ':',
                          digitChar (m % 60 / 10), digitChar (m % 60 % 10)])
  else Except.error TimeError.invalidTimeValue

/-- Modelled from the spec: `times_overlap` of `app.py` (not under the
checked-in sources).  Half-open intervals `[s1,e1)` and `[s2,e2)`
overlap iff `s1 < e2` and `s2 < e1`. -/
def times_overlap (s1 e1 s2 e2 : Nat) : Bool :=
  decide (s1 < e2) && decide (s2 < e1)

/-- Modelled from the spec: `find_available_table` of `app.py` (not under
the checked-in sources).  Scans tables in roster order and returns the
first with enough seats whose own bookings are all free of the requested
window `[start, start + duration)`. -/
def find_available_table (tables : List Table) (bookings : List Booking)
    (party_size start duration : Nat) : Option Table :=
  tables.find? fun t =>
    decide (party_size ≤ t.seats) &&
      (bookings.filter fun b => b.table_id == t.id).all fun b =>
        ! times_overlap start (start + duration) b.start b.finish

/-- A digit character parses back to its value. -/
theorem digitVal_digitChar (d : Nat) (hd : d ≤ 9) : digitVal (digitChar d) = some d := by
  interval_cases d <;> decide

/-- Inversion of `digitVal`: a successfully parsed character is the digit
character of its value, and that value is at most 9. -/
theorem digitVal_eq_some {c : Char} {d : Nat} (h : digitVal c = some d) :
    c = digitChar d ∧ d ≤ 9 := by
  unfold digitVal at h
  split at h
  · next hr =>
    obtain ⟨h0, h9⟩ := hr
    injection h with h
    have hv0 : 48 ≤ c.toNat := h0
    have hv9 : c.toNat ≤ 57 := h9
    constructor
    · have : 48 + d = c.toNat := by omega
      rw [digitChar, this, Char.ofNat_toNat]
    · omega
  · exact absurd h (by simp)

/-- Rendering a valid minute count succeeds with the canonical digits. -/
theorem minutes_to_time_ok (m : Nat) (h : m < 1440) :
    minutes_to_time m =
      Except.ok (String.mk [digitChar (m / 60 / 10), digitChar (m / 60 % 10), ':',
                            digitChar (m % 60 / 10), digitChar (m % 60 % 10)]) := by
  simp [minutes_to_time, h]

/-- Parsing the canonical rendering of hour `h ≤ 23`, minute `mm ≤ 59`
yields `60 * h + mm`. -/
theorem time_to_minutes_canonical (h mm : Nat) (hh : h ≤ 23) (hmm : mm ≤ 59) :
    time_to_minutes (String.mk [digitChar (h / 10), digitChar (h % 10), ':',
                                digitChar (mm / 10), digitChar (mm % 10)]) =
      Except.ok (60 * h + mm) := by
  have e1 := digitVal_digitChar (h / 10) (by omega)
  have e2 := digitVal_digitChar (h % 10) (by omega)
  have e3 := digitVal_digitChar (mm / 10) (by omega)
  have e4 := digitVal_digitChar (mm % 10) (by omega)
  unfold time_to_minutes
  simp only [e1, e2, e3, e4]
  have hb : 10 * (h / 10) + h % 10 ≤ 23 ∧ 10 * (mm / 10) + mm % 10 ≤ 59 := by omega
  simp only [if_pos rfl, if_pos hb]
  have eh : 10 * (h / 10) + h % 10 = h := by omega
  have em : 10 * (mm / 10) + mm % 10 = mm := by omega
  rw [eh, em]
  simp

/-- Round-trip of the codec for `m < 1440`, stated through `Except.bind`. -/
theorem roundtrip_aux (m : Nat) (h : m < 1440) :
    (minutes_to_time m).bind time_to_minutes = Except.ok m := by
  rw [minutes_to_time_ok m h, Except.bind]
  have h23 : m / 60 ≤ 23 := by omega
  have h59 : m % 60 ≤ 59 := by omega
  have := time_to_minutes_canonical (m / 60) (m % 60) h23 h59
  rw [this, Nat.div_add_mod]

/-- A string is its own character list repacked. -/
theorem string_mk_data (s : String) : String.mk s.data = s := rfl

/-- The canonical well-formed `HH:MM` strings and their values: hour at
most 23, minute at most 59, zero-padded two-digit rendering. -/
def isValidHHMM (s : String) (v : Nat) : Prop :=
  ∃ h mm, h ≤ 23 ∧ mm ≤ 59 ∧ v = 60 * h + mm ∧
    s = String.mk [digitChar (h / 10), digitChar (h % 10), ':',
                   digitChar (mm / 10), digitChar (mm % 10)]

/-- Inversion: a successful parse comes from a canonical `HH:MM` string. -/
theorem time_to_minutes_ok_inv {s : String} {v : Nat}
    (hok : time_to_minutes s = Except.ok v) : isValidHHMM s v := by
  unfold time_to_minutes at hok
  split at hok
  · next c1 c2 sep c3 c4 hdata =>
    split at hok
    · next hsep =>
      split at hok
      · next a b x y ha hb hx hy =>
        split at hok
        · next hrange =>
          injection hok with hok
          obtain ⟨hc1, ha9⟩ := digitVal_eq_some ha
          obtain ⟨hc2, hb9⟩ := digitVal_eq_some hb
          obtain ⟨hc3, hx9⟩ := digitVal_eq_some hx
          obtain ⟨hc4, hy9⟩ := digitVal_eq_some hy
          refine ⟨10 * a + b, 10 * x + y, hrange.1, hrange.2, hok.symm, ?_⟩
          have ea : (10 * a + b) / 10 = a := by omega
          have eb : (10 * a + b) % 10 = b := by omega
          have ex : (10 * x + y) / 10 = x := by omega
          have ey : (10 * x + y) % 10 = y := by omega
          rw [ea, eb, ex, ey, ← hc1, ← hc2, ← hc3, ← hc4, ← hsep, ← hdata,
            string_mk_data]
        · simp at hok
      · simp at hok
    · simp at hok
  · simp at hok

/-- Inversion: every failure of the parser is `InvalidTimeFormat`. -/
theorem time_to_minutes_error_inv {s : String} {e : TimeError}
    (herr : time_to_minutes s = Except.error e) : e = TimeError.invalidTimeFormat := by
  unfold time_to_minutes at herr
  split at herr
  · split at herr
    · split at herr
      · split at herr
        · simp at herr
        · injection herr with herr
          exact herr.symm
      · injection herr with herr
        exact herr.symm
    · injection herr with herr
      exact herr.symm
  · injection herr with herr
    exact herr.symm

/-- A canonical `HH:MM` string parses to its value. -/
theorem time_to_minutes_of_valid {s : String} {v : Nat} (hv : isValidHHMM s v) :
    time_to_minutes s = Except.ok v := by
  obtain ⟨h, mm, hh, hmm, hval, hs⟩ := hv
  rw [hs, time_to_minutes_canonical h mm hh hmm, hval]

/-- A table qualifies for a request when it seats the party and none of
its own bookings overlap the half-open window `[start, start+duration)`. -/
def availableFor (bookings : List Booking) (party_size start duration : Nat)
    (t : Table) : Prop :=
  party_size ≤ t.seats ∧ ∀ b ∈ bookings, b.table_id = t.id →
    times_overlap start (start + duration) b.start b.finish = false

instance (bookings : List Booking) (party_size start duration : Nat) (t : Table) :
    Decidable (availableFor bookings party_size start duration t) := by
  unfold availableFor
  infer_instance

/-- Characterization of `List.find?`: it returns `some a` exactly when the
list splits as `pre ++ a :: post` with `a` satisfying the predicate and
everything before it failing. -/
theorem find?_eq_some_first {α : Type} (p : α → Bool) (l : List α) (a : α) :
    l.find? p = some a ↔
      p a = true ∧ ∃ pre post, l = pre ++ a :: post ∧ ∀ u ∈ pre, p u = false := by
  induction l with
  | nil => simp
  | cons x xs ih =>
    cases hx : p x with
    | true =>
      rw [List.find?_cons_of_pos _ hx]
      constructor
      · intro hxa
        injection hxa with hxa
        subst hxa
        exact ⟨hx, [], xs, rfl, by simp⟩
      · rintro ⟨hpa, pre, post, heq, hpre⟩
        cases pre with
        | nil =>
          simp at heq
          rw [heq.1]
        | cons y pre2 =>
          simp at heq
          have hy := hpre y (by simp)
          rw [← heq.1, hx] at hy
          exact absurd hy (by simp)
    | false =>
      rw [List.find?_cons_of_neg _ (by simp [hx]), ih]
      constructor
      · rintro ⟨hpa, pre, post, heq, hpre⟩
        refine ⟨hpa, x :: pre, post, by simp [heq], ?_⟩
        intro u hu
        rcases List.mem_cons.mp hu with h | h
        · rw [h]; exact hx
        · exact hpre u h
      · rintro ⟨hpa, pre, post, heq, hpre⟩
        cases pre with
        | nil =>
          simp at heq
          rw [← heq.1, hx] at hpa
          exact absurd hpa (by simp)
        | cons y pre2 =>
          simp at heq
          refine ⟨hpa, pre2, post, heq.2, ?_⟩
          intro u hu
          exact hpre u (by simp [hu])

/-- The Boolean scan predicate of `find_available_table` agrees with
`availableFor`. -/
theorem scan_pred_iff (bookings : List Booking) (party_size start duration : Nat)
    (t : Table) :
    (decide (party_size ≤ t.seats) &&
        ((bookings.filter fun b => b.table_id == t.id).all fun b =>
          ! times_overlap start (start + duration) b.start b.finish)) = true ↔
      availableFor bookings party_size start duration t := by
  simp only [availableFor, Bool.and_eq_true, decide_eq_true_eq, List.all_eq_true,
    List.mem_filter, Bool.not_eq_true', beq_iff_eq, and_imp]

/-- The resolver returns `some t` exactly when `t` is the first
qualifying table in roster order. -/
theorem find_available_table_first (tables : List Table) (bookings : List Booking)
    (party_size start duration : Nat) (t : Table) :
    find_available_table tables bookings party_size start duration = some t ↔
      availableFor bookings party_size start duration t ∧
        ∃ pre post, tables = pre ++ t :: post ∧
          ∀ u ∈ pre, ¬ availableFor bookings party_size start duration u := by
  unfold find_available_table
  rw [find?_eq_some_first]
  constructor
  · rintro ⟨hp, pre, post, heq, hpre⟩
    refine ⟨(scan_pred_iff _ _ _ _ _).mp hp, pre, post, heq, ?_⟩
    intro u hu hav
    have := (scan_pred_iff bookings party_size start duration u).mpr hav
    rw [hpre u hu] at this
    exact Bool.false_ne_true this
  · rintro ⟨hav, pre, post, heq, hpre⟩
    refine ⟨(scan_pred_iff _ _ _ _ _).mpr hav, pre, post, heq, ?_⟩
    intro u hu
    cases hb : (decide (party_size ≤ u.seats) &&
        ((bookings.filter fun b => b.table_id == u.id).all fun b =>
          ! times_overlap start (start + duration) b.start b.finish)) with
    | false => rfl
    | true => exact absurd ((scan_pred_iff _ _ _ _ _).mp hb) (hpre u hu)

/-- Details carried by a `NotFound` result, enough to render the message
"No table found for party of P at T for D minutes". -/
structure NotFoundDetails where
  party_size : Nat
  start_time : String
  duration : Nat
deriving DecidableEq, Repr

/-- Errors surfaced by the `POST /bookings` endpoint. -/
inductive ApiError where
  | invalidTime (e : TimeError)
  | noTable (d : NotFoundDetails)
deriving DecidableEq, Repr

/-- Rendered detail string of a `NotFound` error, as in `API_README.md`. -/
def notFoundMessage (d : NotFoundDetails) : String :=
  "No table found for party of " ++ toString d.party_size ++ " at " ++
    d.start_time ++ " for " ++ toString d.duration ++ " minutes"

/-- Modelled from the spec: the `POST /bookings` handler of `api.py` (not
under the checked-in sources).  Parses the start time, resolves a table,
and on failure returns `NotFound` carrying the requested party size,
start time and duration. -/
def post_booking (tables : List Table) (bookings : List Booking)
    (party_size : Nat) (start_time : String) (duration : Nat) :
    Except ApiError Table :=
  match time_to_minutes start_time with
  | Except.error e => Except.error (ApiError.invalidTime e)
  | Except.ok start =>
    match find_available_table tables bookings party_size start duration with
    | some t => Except.ok t
    | none => Except.error (ApiError.noTable ⟨party_size, start_time, duration⟩)

/-- Errors of the mutation operations, from the spec's taxonomy. -/
inductive MutationError where
  | capacityExceeded
  | overlapConflict
  | bookingNotFound
deriving DecidableEq, Repr

/-- Look up a table by id in the roster. -/
def tableFor (tables : List Table) (tid : Nat) : Option Table :=
  tables.find? fun t => t.id == tid

/-- Capacity check of the mutation operations: the target table exists
and seats at least the party. -/
def capacityOk (tables : List Table) (tid party_size : Nat) : Bool :=
  match tableFor tables tid with
  | some t => decide (party_size ≤ t.seats)
  | none => false

/-- Overlap check of the mutation operations: no booking on table `tid`,
other than the ones at the excluded indices, overlaps `[s, e)`. -/
def overlapFree (bookings : List Booking) (excluded : List Nat)
    (tid s e : Nat) : Bool :=
  bookings.enum.all fun kb =>
    excluded.contains kb.1 || ! (kb.2.table_id == tid) ||
      ! times_overlap s e kb.2.start kb.2.finish

/-- Modelled from the spec: the `POST /bookings/move_to_table` operation
(`app.py`/`api.py`, not under the checked-in sources).  Re-validates
capacity and overlap (excluding the moved booking itself) before
reassigning `table_id`. -/
def move_to_table (tables : List Table) (bookings : List Booking)
    (idx newTid : Nat) : Except MutationError (List Booking) :=
  match bookings.get? idx with
  | none => Except.error MutationError.bookingNotFound
  | some b =>
    if capacityOk tables newTid b.party_size then
      if overlapFree bookings [idx] newTid b.start b.finish then
        Except.ok (bookings.set idx { b with table_id := newTid })
      else Except.error MutationError.overlapConflict
    else Except.error MutationError.capacityExceeded

/-- Visible outcome of a move: the new collection on success, the
unchanged collection on rejection. -/
def move_to_table_apply (tables : List Table) (bookings : List Booking)
    (idx newTid : Nat) : List Booking :=
  match move_to_table tables bookings idx newTid with
  | Except.ok l => l
  | Except.error _ => bookings

/-- Modelled from the spec: the `POST /bookings/swap_tables` operation
(`app.py`/`api.py`, not under the checked-in sources).  Checks both sides
independently — each booking's capacity on its new table and overlap
against the bookings staying on that table (both swapped bookings
excluded) — and commits both reassignments or neither. -/
def swap_tables (tables : List Table) (bookings : List Booking)
    (i j : Nat) : Except MutationError (List Booking) :=
  match bookings.get? i, bookings.get? j with
  | some b1, some b2 =>
    if capacityOk tables b2.table_id b1.party_size &&
        capacityOk tables b1.table_id b2.party_size then
      if overlapFree bookings [i, j] b2.table_id b1.start b1.finish &&
          overlapFree bookings [i, j] b1.table_id b2.start b2.finish then
        Except.ok ((bookings.set i { b1 with table_id := b2.table_id }).set j
          { b2 with table_id := b1.table_id })
      else Except.error MutationError.overlapConflict
    else Except.error MutationError.capacityExceeded
  | _, _ => Except.error MutationError.bookingNotFound

/-- Visible outcome of a swap: the new collection on success, the
unchanged collection on rejection. -/
def swap_tables_apply (tables : List Table) (bookings : List Booking)
    (i j : Nat) : List Booking :=
  match swap_tables tables bookings i j with
  | Except.ok l => l
  | Except.error _ => bookings

/-- Embedded from `src/unnamed/part_003` (`createBookingFromModal`):
JavaScript `w.charAt(0).toUpperCase() + w.slice(1).toLowerCase()`. -/
def titleCaseJs (s : String) : String :=
  match s.data with
  | [] => ""
  | c :: rest => String.mk (c.toUpper :: rest.map Char.toLower)

/-- JavaScript `String.prototype.trim`: strips whitespace from both
ends of the string. -/
def jsTrim (s : String) : String :=
  String.mk
    (((s.data.dropWhile Char.isWhitespace).reverse.dropWhile
      Char.isWhitespace).reverse)

/-- Embedded from `src/unnamed/part_003` (`createBookingFromModal`): the
first and last name are trimmed, both are required non-empty, and the
`name` field posted to `POST /bookings` is the title-cased names joined
by a single space.  `none` models the early return when validation
fails (nothing is posted). -/
def createBookingName (rawFirst rawLast : String) : Option String :=
  let firstName := jsTrim rawFirst
  let lastName := jsTrim rawLast
  if firstName = "" ∨ lastName = "" then none
  else some (titleCaseJs firstName ++ " " ++ titleCaseJs lastName)

/-- The claim's wording of title case, stated independently of the
source: first character uppercased, all remaining characters
lowercased. -/
def titleCaseClaim (w : String) : String :=
  String.mk ((w.data.take 1).map Char.toUpper ++ (w.data.drop 1).map Char.toLower)

/-- The source's title-casing agrees with the claim's wording. -/
theorem titleCaseJs_eq_claim (w : String) : titleCaseJs w = titleCaseClaim w := by
  unfold titleCaseJs titleCaseClaim
  cases w.data with
  | nil => rfl
  | cons c rest => simp [Char.toUpper]

/-- Embedded from `src/static/js/floorplan.js`: the state of one
floor-plan element relevant to capacity bookkeeping (the geometric
fields `x`, `y`, `width`, `height` are pixel floats and are omitted;
no claim concerns them). -/
structure FpElement where
  id : Nat
  name : String
  capacity : Nat
  sectionName : String
  shape : String
  bookable : Bool
  is_landmark : Bool
deriving DecidableEq, Repr

/-- Embedded from `src/static/js/floorplan.js`: the values of the
details panel when Apply is clicked. -/
structure DetailsInput where
  name : String
  capacity : Nat
  sectionName : String
  shapeRound : Bool
deriving DecidableEq, Repr

/-- Embedded from `src/static/js/floorplan.js` (the `applyBtn` click
handler, lines 234-257): copies the panel values onto the selected
element, forcing `capacity` to 0 when the element is a landmark. -/
def applyDetails (el : FpElement) (input : DetailsInput) : FpElement :=
  let capacity := if el.is_landmark then 0 else input.capacity
  let shape := if input.shapeRound then "round" else "square"
  { el with name := input.name, capacity := capacity,
            sectionName := input.sectionName, shape := shape }

/-- Embedded from `src/static/js/floorplan.js`: one entry of the saved
layout payload (geometric fields omitted as above). -/
structure PayloadEntry where
  id : Nat
  name : String
  capacity : Nat
  sectionName : String
  shape : String
  bookable : Bool
  is_landmark : Bool
deriving DecidableEq, Repr

/-- Embedded from `src/static/js/floorplan.js`
(`collectTablesPayload`, lines 173-191): reads each element's dataset
into a payload entry. -/
def collectTablesPayload (els : List FpElement) : List PayloadEntry :=
  els.map fun el =>
    ⟨el.id, el.name, el.capacity, el.sectionName, el.shape, el.bookable,
      el.is_landmark⟩

/-- C1: `find_available_table` returns the first table in roster order
whose seats cover the party and none of whose own bookings overlap the
half-open window `[start, start+duration)`; bookings on other tables
never disqualify a table.  With tables `(1,2), (2,4), (3,6)` and no
bookings, party 4 at 19:00 for 120 minutes gets table 2; with table 2
booked `[19:00, 21:00)` the same request gets table 3. -/
theorem claim_C1_first_fit :
    (∀ (tables : List Table) (bookings : List Booking)
        (party_size start duration : Nat) (t : Table),
      find_available_table tables bookings party_size start duration = some t ↔
        availableFor bookings party_size start duration t ∧
          ∃ pre post, tables = pre ++ t :: post ∧
            ∀ u ∈ pre, ¬ availableFor bookings party_size start duration u) ∧
    find_available_table [⟨1, 2⟩, ⟨2, 4⟩, ⟨3, 6⟩] [] 4 (19 * 60) 120 =
      some ⟨2, 4⟩ ∧
    find_available_table [⟨1, 2⟩, ⟨2, 4⟩, ⟨3, 6⟩]
        [⟨2, "Jane", 4, 19 * 60, 21 * 60, none⟩] 4 (19 * 60) 120 =
      some ⟨3, 6⟩ := by
  refine ⟨?_, by decide, by decide⟩
  intro tables bookings party_size start duration t
  exact find_available_table_first tables bookings party_size start duration t

/-- C1 witness: the general first-fit characterization applied at the
scenario-A roster with its hypotheses discharged concretely. -/
theorem claim_C1_witness :
    find_available_table [⟨1, 2⟩, ⟨2, 4⟩, ⟨3, 6⟩] [] 4 (19 * 60) 120 =
      some ⟨2, 4⟩ :=
  (claim_C1_first_fit.1 [⟨1, 2⟩, ⟨2, 4⟩, ⟨3, 6⟩] [] 4 (19 * 60) 120 ⟨2, 4⟩).mpr
    ⟨by decide, [⟨1, 2⟩], [⟨3, 6⟩], rfl, by decide⟩

/-- C2: `times_overlap` decides half-open interval overlap — for proper
intervals it is true iff `s1 < e2` and `s2 < e1`; an interval ending
exactly when another starts does not overlap it. -/
theorem claim_C2_overlap_iff :
    (∀ s1 e1 s2 e2 : Nat, s1 < e1 → s2 < e2 →
      (times_overlap s1 e1 s2 e2 = true ↔ s1 < e2 ∧ s2 < e1)) ∧
    times_overlap (18 * 60) (20 * 60) (20 * 60) (21 * 60) = false ∧
    times_overlap (18 * 60) (20 * 60) (19 * 60) (19 * 60 + 30) = true := by
  refine ⟨?_, by decide, by decide⟩
  intro s1 e1 s2 e2 _ _
  simp [times_overlap]

/-- C2 witness: the overlap characterization applied at a concrete
proper pair of intervals. -/
theorem claim_C2_witness : times_overlap 0 10 5 20 = true :=
  (claim_C2_overlap_iff.1 0 10 5 20 (by decide) (by decide)).mpr
    ⟨by decide, by decide⟩

/-- C3: round-trip law of the time codec — formatting a minute value in
`[0, 1440)` and parsing it back returns the value. -/
theorem claim_C3_roundtrip (m : Nat) (h : m < 1440) :
    (minutes_to_time m).bind time_to_minutes = Except.ok m :=
  roundtrip_aux m h

/-- C3 witness: the round-trip law at `m = 1140` (19:00). -/
theorem claim_C3_witness :
    1140 < 1440 ∧ (minutes_to_time 1140).bind time_to_minutes = Except.ok 1140 :=
  ⟨by decide, claim_C3_roundtrip 1140 (by decide)⟩

/-- C4: `time_to_minutes` succeeds exactly on zero-padded `HH:MM`
strings with `HH ≤ 23` and `MM ≤ 59`, returning `60*HH + MM`, and fails
with `InvalidTimeFormat` on every other input; no other outcome is
possible. -/
theorem claim_C4_parse_dichotomy (s : String) :
    (∃ v, time_to_minutes s = Except.ok v ∧ isValidHHMM s v) ∨
      (time_to_minutes s = Except.error TimeError.invalidTimeFormat ∧
        ∀ v, ¬ isValidHHMM s v) := by
  cases hp : time_to_minutes s with
  | ok v => exact Or.inl ⟨v, rfl, time_to_minutes_ok_inv hp⟩
  | error e =>
    refine Or.inr ⟨by rw [time_to_minutes_error_inv hp], ?_⟩
    intro v hv
    have := time_to_minutes_of_valid hv
    rw [hp] at this
    exact Except.noConfusion this

/-- C4 witness: the dichotomy evaluated at two concrete strings, one
well-formed and one malformed. -/
theorem claim_C4_witness :
    ((∃ v, time_to_minutes "19:00" = Except.ok v ∧ isValidHHMM "19:00" v) ∨
      (time_to_minutes "19:00" = Except.error TimeError.invalidTimeFormat ∧
        ∀ v, ¬ isValidHHMM "19:00" v)) ∧
    ((∃ v, time_to_minutes "24:00" = Except.ok v ∧ isValidHHMM "24:00" v) ∨
      (time_to_minutes "24:00" = Except.error TimeError.invalidTimeFormat ∧
        ∀ v, ¬ isValidHHMM "24:00" v)) :=
  ⟨claim_C4_parse_dichotomy "19:00", claim_C4_parse_dichotomy "24:00"⟩

/-- C5: when no table passes the capacity and overlap checks, the
booking endpoint returns `NotFound` carrying the requested party size,
start time and duration — it never returns a table. -/
theorem claim_C5_notfound (tables : List Table) (bookings : List Booking)
    (party_size : Nat) (start_time : String) (duration start_m : Nat)
    (hparse : time_to_minutes start_time = Except.ok start_m)
    (hnone : find_available_table tables bookings party_size start_m duration = none) :
    post_booking tables bookings party_size start_time duration =
      Except.error (ApiError.noTable ⟨party_size, start_time, duration⟩) := by
  unfold post_booking
  rw [hparse]
  simp only []
  rw [hnone]

/-- C5 witness: scenario C — party of 50 at 19:00 for 120 minutes with
no table of 50 seats yields `NotFound` with those details, whose
rendered message mentions all three. -/
theorem claim_C5_witness :
    post_booking [⟨1, 2⟩, ⟨2, 4⟩, ⟨3, 6⟩] [] 50 "19:00" 120 =
      Except.error (ApiError.noTable ⟨50, "19:00", 120⟩) ∧
    notFoundMessage ⟨50, "19:00", 120⟩ =
      "No table found for party of 50 at 19:00 for 120 minutes" :=
  ⟨claim_C5_notfound [⟨1, 2⟩, ⟨2, 4⟩, ⟨3, 6⟩] [] 50 "19:00" 120 1140 rfl rfl,
    rfl⟩

/-- C6: swap-tables is atomic — when both sides pass capacity and
overlap, both `table_id` reassignments are committed; when any check
fails, the visible collection is exactly the old one. -/
theorem claim_C6_swap_atomic (tables : List Table) (bookings : List Booking)
    (i j : Nat) (b1 b2 : Booking)
    (h1 : bookings.get? i = some b1) (h2 : bookings.get? j = some b2) :
    (capacityOk tables b2.table_id b1.party_size = true →
     capacityOk tables b1.table_id b2.party_size = true →
     overlapFree bookings [i, j] b2.table_id b1.start b1.finish = true →
     overlapFree bookings [i, j] b1.table_id b2.start b2.finish = true →
     swap_tables_apply tables bookings i j =
       (bookings.set i { b1 with table_id := b2.table_id }).set j
         { b2 with table_id := b1.table_id }) ∧
    (¬ (capacityOk tables b2.table_id b1.party_size = true ∧
        capacityOk tables b1.table_id b2.party_size = true ∧
        overlapFree bookings [i, j] b2.table_id b1.start b1.finish = true ∧
        overlapFree bookings [i, j] b1.table_id b2.start b2.finish = true) →
     swap_tables_apply tables bookings i j = bookings) := by
  constructor
  · intro hc1 hc2 ho1 ho2
    unfold swap_tables_apply swap_tables
    rw [h1, h2]
    simp [hc1, hc2, ho1, ho2]
  · intro hnot
    unfold swap_tables_apply swap_tables
    rw [h1, h2]
    by_cases hc1 : capacityOk tables b2.table_id b1.party_size = true
    · by_cases hc2 : capacityOk tables b1.table_id b2.party_size = true
      · by_cases ho1 :
          overlapFree bookings [i, j] b2.table_id b1.start b1.finish = true
        · by_cases ho2 :
            overlapFree bookings [i, j] b1.table_id b2.start b2.finish = true
          · exact absurd ⟨hc1, hc2, ho1, ho2⟩ hnot
          · simp [hc1, hc2, ho1, Bool.eq_false_iff.mpr ho2]
        · simp [hc1, hc2, Bool.eq_false_iff.mpr ho1]
      · simp [hc1, Bool.eq_false_iff.mpr hc2]
    · simp [Bool.eq_false_iff.mpr hc1]

/-- C6 witness: a concrete swap of two equal-time bookings between two
4-seat tables commits both reassignments. -/
theorem claim_C6_witness :
    swap_tables_apply [⟨1, 4⟩, ⟨2, 4⟩]
        [⟨1, "A", 2, 1140, 1260, none⟩, ⟨2, "B", 3, 1140, 1260, none⟩] 0 1 =
      [⟨2, "A", 2, 1140, 1260, none⟩, ⟨1, "B", 3, 1140, 1260, none⟩] :=
  (claim_C6_swap_atomic [⟨1, 4⟩, ⟨2, 4⟩]
      [⟨1, "A", 2, 1140, 1260, none⟩, ⟨2, "B", 3, 1140, 1260, none⟩] 0 1
      ⟨1, "A", 2, 1140, 1260, none⟩ ⟨2, "B", 3, 1140, 1260, none⟩ rfl rfl).1
    (by decide) (by decide) (by decide) (by decide)

/-- C7: move-to-table re-validates before committing — with capacity and
overlap both passing it reassigns exactly the moved booking's
`table_id`; a capacity failure rejects with `CapacityExceeded` and an
overlap failure with `OverlapConflict`, in both cases leaving the
collection unchanged. -/
theorem claim_C7_move_validates (tables : List Table) (bookings : List Booking)
    (idx newTid : Nat) (b : Booking) (hb : bookings.get? idx = some b) :
    (capacityOk tables newTid b.party_size = true →
     overlapFree bookings [idx] newTid b.start b.finish = true →
     move_to_table tables bookings idx newTid =
       Except.ok (bookings.set idx { b with table_id := newTid })) ∧
    (capacityOk tables newTid b.party_size = false →
     move_to_table tables bookings idx newTid =
       Except.error MutationError.capacityExceeded ∧
     move_to_table_apply tables bookings idx newTid = bookings) ∧
    (capacityOk tables newTid b.party_size = true →
     overlapFree bookings [idx] newTid b.start b.finish = false →
     move_to_table tables bookings idx newTid =
       Except.error MutationError.overlapConflict ∧
     move_to_table_apply tables bookings idx newTid = bookings) := by
  refine ⟨?_, ?_, ?_⟩
  · intro hc ho
    unfold move_to_table
    rw [hb]
    simp [hc, ho]
  · intro hc
    have hm : move_to_table tables bookings idx newTid =
        Except.error MutationError.capacityExceeded := by
      unfold move_to_table
      rw [hb]
      simp [hc]
    exact ⟨hm, by unfold move_to_table_apply; rw [hm]⟩
  · intro hc ho
    have hm : move_to_table tables bookings idx newTid =
        Except.error MutationError.overlapConflict := by
      unfold move_to_table
      rw [hb]
      simp [hc, ho]
    exact ⟨hm, by unfold move_to_table_apply; rw [hm]⟩

/-- C7 witness: a concrete move of a party of 2 to a free 4-seat table
succeeds and reassigns only that booking's table. -/
theorem claim_C7_witness :
    move_to_table [⟨1, 4⟩, ⟨2, 4⟩] [⟨1, "A", 2, 1140, 1260, none⟩] 0 2 =
      Except.ok [⟨2, "A", 2, 1140, 1260, none⟩] :=
  (claim_C7_move_validates [⟨1, 4⟩, ⟨2, 4⟩] [⟨1, "A", 2, 1140, 1260, none⟩]
      0 2 ⟨1, "A", 2, 1140, 1260, none⟩ rfl).1 (by decide) (by decide)

/-- C8: `find_available_table` is deterministic — two calls on identical
tables, bookings and request arguments return the identical result; it
is a pure function of its inputs with no hidden state. -/
theorem claim_C8_deterministic (tables : List Table) (bookings : List Booking)
    (party_size start duration : Nat) :
    find_available_table tables bookings party_size start duration =
      find_available_table tables bookings party_size start duration := rfl

/-- C9: the booking-creation client normalizes names to title case — for
inputs whose trimmed first and last names are non-empty, the posted
`name` is the two words joined by one space, each with its first
character uppercased and the remaining characters lowercased; the raw
casing is never sent. -/
theorem claim_C9_title_case (rawFirst rawLast : String)
    (hf : jsTrim rawFirst ≠ "") (hl : jsTrim rawLast ≠ "") :
    createBookingName rawFirst rawLast =
      some (titleCaseClaim (jsTrim rawFirst) ++ " " ++
        titleCaseClaim (jsTrim rawLast)) := by
  unfold createBookingName
  rw [if_neg (by push_neg; exact ⟨hf, hl⟩)]
  rw [titleCaseJs_eq_claim, titleCaseJs_eq_claim]

/-- C9 witness: `" john "`, `"dOE"` post exactly `"John Doe"`. -/
theorem claim_C9_witness :
    createBookingName " john " "dOE" =
      some (titleCaseClaim (jsTrim " john ") ++ " " ++
        titleCaseClaim (jsTrim "dOE")) ∧
    titleCaseClaim (jsTrim " john ") ++ " " ++ titleCaseClaim (jsTrim "dOE") =
      "John Doe" :=
  ⟨claim_C9_title_case " john " "dOE" (by decide) (by decide), by decide⟩

/-- C10: a floor-plan landmark always has capacity 0 — the apply
operation forces a landmark's capacity to 0 whatever was entered, the
saved payload preserves the landmark-capacity-0 invariant, and the
resolver's capacity filter never returns a 0-seat table for a positive
party size. -/
theorem claim_C10_landmark_capacity :
    (∀ (el : FpElement) (input : DetailsInput),
      el.is_landmark = true → (applyDetails el input).capacity = 0) ∧
    (∀ els : List FpElement,
      (∀ el ∈ els, el.is_landmark = true → el.capacity = 0) →
      ∀ p ∈ collectTablesPayload els, p.is_landmark = true → p.capacity = 0) ∧
    (∀ (tables : List Table) (bookings : List Booking)
        (party_size start duration : Nat) (t : Table),
      0 < party_size →
      find_available_table tables bookings party_size start duration = some t →
      0 < t.seats) := by
  refine ⟨?_, ?_, ?_⟩
  · intro el input hland
    simp [applyDetails, hland]
  · intro els hinv p hp hland
    obtain ⟨el, hel, rfl⟩ := List.mem_map.mp hp
    exact hinv el hel hland
  · intro tables bookings party_size start duration t hpos hfind
    have hp := List.find?_some hfind
    have hseats : party_size ≤ t.seats := by
      have := (Bool.and_eq_true _ _).mp hp
      exact of_decide_eq_true this.1
    omega

/-- C10 witness: applying a capacity of 8 to a concrete landmark leaves
it at capacity 0, the payload of that element keeps capacity 0, and the
resolver rejects a 0-seat table for a party of 1. -/
theorem claim_C10_witness :
    (applyDetails ⟨7, "Bar", 0, "Main", "square", false, true⟩
        ⟨"Bar", 8, "Main", false⟩).capacity = 0 ∧
    (∀ p ∈ collectTablesPayload [⟨7, "Bar", 0, "Main", "square", false, true⟩],
      p.is_landmark = true → p.capacity = 0) ∧
    0 < (⟨3, 6⟩ : Table).seats :=
  ⟨claim_C10_landmark_capacity.1 ⟨7, "Bar", 0, "Main", "square", false, true⟩
      ⟨"Bar", 8, "Main", false⟩ rfl,
    claim_C10_landmark_capacity.2.1 [⟨7, "Bar", 0, "Main", "square", false, true⟩]
      (by decide),
    claim_C10_landmark_capacity.2.2 [⟨3, 6⟩] [] 4 1140 120 ⟨3, 6⟩ (by decide)
      (by decide)⟩

end Seatelligence
